import Mathlib

/-!
Verification development for the joestar runtime bridge
(crates `joestar`, modules `src/api.rs` and `src/rt.rs`).

The definitions below are a shallow embedding of the Rust source:

* Rust `String`/`&str` values are Lean `String`s; character-level
  processing (`split`, `trim`, `lines`) is re-implemented on `List Char`
  so that everything reduces in the kernel.
* `usize` arithmetic is `Nat` with an explicit `% 2 ^ 64` where the code
  can wrap (`AtomicUsize::fetch_add`).
* A Rust `panic!` (every `unwrap()` on `None`/`Err`) is modelled as an
  `Except.error`; fallible decoding therefore returns `Except`.
* `BTreeMap`/`HashMap` values are modelled as partial functions
  (`κ → Option β`) when only lookup/insert/remove semantics matter, and
  as association lists when iteration order matters (serialization,
  detail maps).  Rust `HashMap` iteration order is unspecified; the
  association-list model fixes insertion order, which no theorem below
  depends on beyond presence.
* Global/thread-local statics (`CALLBACKS`, `VIEW_CUR`, the counters)
  are passed explicitly as state.
-/

namespace Joestar

/-! ## Character helpers (ASCII code points used by the wire format) -/

def gtChar : Char := Char.ofNat 62

def colonChar : Char := Char.ofNat 58

def commaChar : Char := Char.ofNat 44

def nlChar : Char := Char.ofNat 10

def crChar : Char := Char.ofNat 13

def plusChar : Char := Char.ofNat 43

/-- Prepend a character to the first segment of a split result. -/
def consHead (c : Char) : List (List Char) → List (List Char)
  | [] => [[c]]
  | s :: ss => (c :: s) :: ss

/-- Rust `str::split(sep)` for a one-character pattern: every occurrence
splits, empty segments are produced, and splitting the empty string
yields one empty segment. -/
def splitOnChar (sep : Char) : List Char → List (List Char)
  | [] => [[]]
  | c :: rest =>
    if c == sep then [] :: splitOnChar sep rest
    else consHead c (splitOnChar sep rest)

/-- Rust `str::split(">>>")`: split on every occurrence of the
three-character separator, scanning left to right. -/
def splitGt3 : List Char → List (List Char)
  | a :: b :: c :: rest =>
    if a == gtChar && b == gtChar && c == gtChar then [] :: splitGt3 rest
    else consHead a (splitGt3 (b :: c :: rest))
  | [a, b] => [[a, b]]
  | [a] => [[a]]
  | [] => [[]]

/-- Rust `str::trim`: strip whitespace from both ends. -/
def rustTrim (cs : List Char) : List Char :=
  ((cs.dropWhile Char.isWhitespace).reverse.dropWhile Char.isWhitespace).reverse

def usizeWidth : Nat := 2 ^ 64

def usizeMax : Nat := 2 ^ 64 - 1

def digitsVal (cs : List Char) : Nat :=
  cs.foldl (fun acc c => acc * 10 + (c.toNat - 48)) 0

/-- Rust `str::parse::<usize>()`: an optional leading `+`, then one or
more ASCII digits, and the value must fit in `usize` (overflow is a
parse error). -/
def parseUsize (cs : List Char) : Option Nat :=
  let ds := if cs.head? = some plusChar then cs.tail else cs
  if ds.isEmpty then none
  else if ds.all Char.isDigit then
    let v := digitsVal ds
    if v ≤ usizeMax then some v else none
  else none

/-- A Rust `panic!` (an `unwrap()` that fails). -/
inductive RtPanic where
  | unwrapFailed
deriving DecidableEq

/-! ## Addressing protocol (`api.rs`: `Position`, `Agent`, the
`Into<String>` and `From<&str>` impls) -/

/-- `api.rs` `enum Position`. -/
inductive Position where
  | Path (path : List Nat)
  | IdPath (id : String) (path : List Nat)
deriving DecidableEq

/-- `api.rs` `struct Agent`. -/
structure Agent where
  ord : Nat
  position : Position
deriving DecidableEq

/-- `api.rs` `impl Into<String> for Agent`: `"<ord>:"` or
`"<ord>,<id>:"` followed by each index with a trailing comma. -/
def agentIntoString (a : Agent) : String :=
  match a.position with
  | Position.Path path =>
    path.foldl (fun acc i => acc ++ Nat.repr i ++ ",") (Nat.repr a.ord ++ ":")
  | Position.IdPath id path =>
    path.foldl (fun acc i => acc ++ Nat.repr i ++ ",")
      (Nat.repr a.ord ++ "," ++ id ++ ":")

/-- Parse every segment of a split tail; any failing segment is the
`unwrap()` panic of `i.parse::<usize>().unwrap()`. -/
def mapParse : List (List Char) → Option (List Nat)
  | [] => some []
  | s :: rest =>
    match parseUsize s, mapParse rest with
    | some v, some vs => some (v :: vs)
    | _, _ => none

/-- `api.rs` `impl From<&str> for Agent`.  Trims, splits on `:` taking
the first two segments, splits the head on `,` to get the ord and the
optional id.  In the `IdPath` branch empty tail segments are skipped
(`if i.is_empty() continue`); in the `Path` branch they are not, so an
empty segment panics in `parse().unwrap()`. -/
def agentFromStr (s : String) : Except RtPanic Agent :=
  let cs := rustTrim s.toList
  let parts := splitOnChar colonChar cs
  let head := parts.headD []
  match parts.get? 1 with
  | none => Except.error RtPanic.unwrapFailed
  | some tail =>
    let hparts := splitOnChar commaChar head
    match parseUsize (hparts.headD []) with
    | none => Except.error RtPanic.unwrapFailed
    | some ord =>
      match hparts.get? 1 with
      | some id =>
        match mapParse ((splitOnChar commaChar tail).filter
            (fun seg => !seg.isEmpty)) with
        | none => Except.error RtPanic.unwrapFailed
        | some path => Except.ok ⟨ord, Position.IdPath (String.mk id) path⟩
      | none =>
        match mapParse (splitOnChar commaChar tail) with
        | none => Except.error RtPanic.unwrapFailed
        | some path => Except.ok ⟨ord, Position.Path path⟩

example : agentIntoString ⟨0, Position.Path []⟩ = "0:" := rfl

example : agentIntoString ⟨3, Position.IdPath "b1" [0, 2]⟩ = "3,b1:0,2," := rfl

example : agentFromStr "3,b1:0,2," = Except.ok ⟨3, Position.IdPath "b1" [0, 2]⟩ := rfl

example : agentFromStr "0:" = Except.error RtPanic.unwrapFailed := rfl

example : agentFromStr "0:1,2," = Except.error RtPanic.unwrapFailed := rfl

example : agentFromStr "7:1,2" = Except.ok ⟨7, Position.Path [1, 2]⟩ := rfl

/-! ## Callback registry (`api.rs`: `static mut CALLBACKS`, `Callback`)

The registry's closures cannot be embedded; the `BTreeMap<usize,
CallbackFunc>` is modelled by its key set (a `List Nat`), and "the
closure stored under id runs with payload (agent, detail)" is modelled
by returning that id together with the payload. -/

/-- `api.rs` `struct Callback`. -/
structure Callback where
  id : Nat
deriving DecidableEq

/-- `Callback::get`: succeeds iff the id is currently stored. -/
def Callback.get (callbacks : List Nat) (id : Nat) : Option Callback :=
  if id ∈ callbacks then some ⟨id⟩ else none

/-- `Callback::remove`: `CALLBACKS.remove(&self.id)` (absent key is a
no-op for `BTreeMap::remove`). -/
def Callback.remove (callbacks : List Nat) (c : Callback) : List Nat :=
  callbacks.filter (fun k => k != c.id)

/-- `Callback::invoke`: `CALLBACKS.get_mut(&self.id).unwrap()` — panics
when the id is absent, otherwise runs the stored closure with the
payload. -/
def Callback.invoke (callbacks : List Nat) (c : Callback) (agent : Agent)
    (detail : List (String × String)) :
    Except RtPanic (Nat × Agent × List (String × String)) :=
  if c.id ∈ callbacks then Except.ok (c.id, agent, detail)
  else Except.error RtPanic.unwrapFailed

/-- The guarded invocation pattern used by every dispatch site in
`rt.rs` (`handle_wry_event` closures and the ipc handler):
`if let Some(cb) = Callback::get(i) { cb.invoke(agent, detail) }`. -/
def dispatch_closure (callbacks : List Nat) (cb_index : Nat) (agent : Agent)
    (detail : List (String × String)) :
    Option (Except RtPanic (Nat × Agent × List (String × String))) :=
  match Callback.get callbacks cb_index with
  | some callback => some (Callback.invoke callbacks callback agent detail)
  | none => none

/-! ## IPC decoder (`rt.rs`: the `with_ipc_handler` closure in
`handle_create_web_view`) -/

/-- Strip one trailing carriage return, as Rust `str::lines` does. -/
def rustStripCr (l : List Char) : List Char :=
  if l.getLast? = some crChar then l.dropLast else l

/-- Rust `str::lines()`: split on newline; a final trailing newline
does not produce a final empty line; a trailing `\r` is stripped. -/
def rustLines (s : String) : List (List Char) :=
  let parts := splitOnChar nlChar s.toList
  let parts := if parts.getLast? = some [] then parts.dropLast else parts
  parts.map rustStripCr

/-- `HashMap::insert` on the association-list model: replace the value
in place when the key is present, otherwise append. -/
def hmInsert (m : List (String × String)) (k v : String) :
    List (String × String) :=
  match m with
  | [] => [(k, v)]
  | (k0, v0) :: rest =>
    if k0 = k then (k, v) :: rest else (k0, v0) :: hmInsert rest k v

/-- The `while let Some(key) = raw.next()` loop of the ipc handler:
consume the remaining lines pairwise; an odd count panics on
`raw.next().unwrap()` for the value. -/
def detailLoop : List (List Char) → List (String × String) →
    Except RtPanic (List (String × String))
  | [], acc => Except.ok acc
  | [_], _ => Except.error RtPanic.unwrapFailed
  | k :: v :: rest, acc => detailLoop rest (hmInsert acc (String.mk k) (String.mk v))

/-- A callback-invocation request pushed onto the dispatch queue by
`user_dispatch`: the closure captures the callback index, the agent and
the detail map. -/
structure DispatchEntry where
  cb_index : Nat
  agent : Agent
  detail : List (String × String)
deriving DecidableEq

/-- The inbound-IPC handler closure installed by
`handle_create_web_view` (`rt.rs`).  First line is
`<agent-notation>>>><callback-id>`, remaining lines alternate key and
value/ a present callback id is turned into a `user_dispatch` of the
invocation (returned as `some entry`); an absent id dispatches nothing.
Every `unwrap()` on malformed input is an `Except.error`. -/
def ipc_handler (callbacks : List Nat) (raw : String) :
    Except RtPanic (Option DispatchEntry) :=
  match rustLines raw with
  | [] => Except.error RtPanic.unwrapFailed
  | head :: rest =>
    let hp := splitGt3 head
    match agentFromStr (String.mk (hp.headD [])) with
    | Except.error e => Except.error e
    | Except.ok agent =>
      match hp.get? 1 with
      | none => Except.error RtPanic.unwrapFailed
      | some cbSeg =>
        match parseUsize cbSeg with
        | none => Except.error RtPanic.unwrapFailed
        | some cb_index =>
          match detailLoop rest [] with
          | Except.error e => Except.error e
          | Except.ok detail =>
            match Callback.get callbacks cb_index with
            | some callback => Except.ok (some ⟨callback.id, agent, detail⟩)
            | none => Except.ok none

example :
    ipc_handler [7] "0,b1:>>>7\nclientX\n10\nclientY\n20" =
      Except.ok (some ⟨7, ⟨0, Position.IdPath "b1" []⟩,
        [("clientX", "10"), ("clientY", "20")]⟩) := rfl

example : ipc_handler [] "0,b1:1" = Except.error RtPanic.unwrapFailed := rfl

example : ipc_handler [] "0,b1:>>>7\nonlykey" = Except.error RtPanic.unwrapFailed := rfl

example : ipc_handler [] "0,b1:>>>abc" = Except.error RtPanic.unwrapFailed := rfl

example : ipc_handler [] "0,b1:>>>7" = Except.ok none := rfl

/-! ## Element tree and serializer (`api.rs`: `Model`, `attrs_string`,
`style_string`, `html_string`) -/

/-- `api.rs` `struct Model`.  The `HashMap` fields are association
lists (insertion order; Rust's iteration order is unspecified). -/
structure Model where
  tag : String
  id : Option String
  attrs : List (String × String)
  style : List (String × String)
  text : Option String
  children : List Model

/-- `Model::new`. -/
def Model.new (tag : String) : Model :=
  ⟨tag, none, [], [], none, []⟩

/-- `Model::id` (builder; renamed because the field projection takes the
source name in Lean). -/
def Model.withId (m : Model) (id : String) : Model :=
  { m with id := some id }

/-- `Model::attr`. -/
def Model.attr (m : Model) (key val : String) : Model :=
  { m with attrs := hmInsert m.attrs key val }

/-- `Model::style` (builder; renamed because of the field projection). -/
def Model.withStyle (m : Model) (key val : String) : Model :=
  { m with style := hmInsert m.style key val }

/-- `Model::child`. -/
def Model.child (m : Model) (c : Model) : Model :=
  { m with children := m.children ++ [c] }

/-- `Model::children` (builder; renamed because of the field projection). -/
def Model.withChildren (m : Model) (cs : List Model) : Model :=
  { m with children := m.children ++ cs }

/-- `Model::text` (builder; renamed because of the field projection). -/
def Model.withText (m : Model) (t : String) : Model :=
  { m with text := some t }

/-- `api.rs` `attrs_string`: each entry as `key="val" ` (with trailing
space). -/
def attrs_string (attrs : List (String × String)) : String :=
  attrs.foldl (fun acc kv => acc ++ kv.1 ++ "=\"" ++ kv.2 ++ "\" ") ""

/-- `api.rs` `style_string`: each entry as `key: val; `. -/
def style_string (style : List (String × String)) : String :=
  style.foldl (fun acc kv => acc ++ kv.1 ++ ": " ++ kv.2 ++ "; ") ""

mutual

/-- `api.rs` `html_string`: `<tag`, the optional ` id="..."`, a space
and the attributes when non-empty, the style block when non-empty,
`>`, the optional text, the children in order, `</tag>`. -/
def html_string : Model → String
  | Model.mk tag id attrs style text children =>
    "<" ++ tag
      ++ (match id with
          | some i => " id=\"" ++ i ++ "\""
          | none => "")
      ++ (if attrs.isEmpty then "" else " " ++ attrs_string attrs)
      ++ (if style.isEmpty then "" else " style=\"" ++ style_string style ++ "\"")
      ++ ">"
      ++ (match text with
          | some t => t
          | none => "")
      ++ html_string_list children
      ++ "</" ++ tag ++ ">"

/-- The `for child in &model.children` loop of `html_string`. -/
def html_string_list : List Model → String
  | [] => ""
  | c :: cs => html_string c ++ html_string_list cs

end

example :
    html_string ((Model.new "div").child ((Model.new "p").withText "x")) =
      "<div><p>x</p></div>" := by
  simp [Model.new, Model.child, Model.withText, html_string, html_string_list]

/-! ## Runtime state and event-loop controller (`rt.rs`) -/

/-- `api.rs` `struct Spec`. -/
structure Spec where
  title : String
  size : Nat × Nat

/-- `api.rs` `enum ViewEventKey`. -/
inductive ViewEventKey where
  | CloseRequest
  | Resize
  | Move
deriving DecidableEq

/-- `rt.rs` `enum JoEvent`.  `UserLaunch`'s entry function and the
script payloads are opaque here; `CreateWebView` carries the native
window id that the rendering engine assigns when the window is built
(`web_view.window().id()`), made explicit so the model stays a pure
function. -/
inductive JoEvent where
  | UserLaunch
  | CreateWebView (ord : Nat) (spec : Spec) (window_id : Nat)
  | EvalScript (ord : Nat) (script : String)
  | DestroyWebView (ord : Nat)
  | RegisterEvent (ord : Nat) (key : ViewEventKey) (cb_index : Nat)
  | Terminate

/-- `rt.rs` `struct RtState`.  `views: BTreeMap<usize, WebView>` is
modelled by its key set (the surface objects are opaque); the two other
`BTreeMap`s are partial functions. -/
structure RtState where
  views : List Nat
  view_event_callback_map : Nat → Option (ViewEventKey → Option Nat)
  view_wid_map : Nat → Option Nat

/-- `BTreeMap::insert` on the partial-function model. -/
def btreeInsert {κ β : Type} [DecidableEq κ] (m : κ → Option β) (k : κ)
    (v : β) : κ → Option β :=
  fun x => if x = k then some v else m x

/-- `BTreeMap::insert` restricted to the key set: the set is unchanged
when the key is present, extended otherwise. -/
def keyInsert (l : List Nat) (k : Nat) : List Nat :=
  if k ∈ l then l else l ++ [k]

/-- Controller-side hard failures (`unwrap()` panics on the controller
thread).  `unknownView` is the `state.views.get/remove(&ord).unwrap()`
panic on an absent ord — the UnknownView hard error of the spec;
`missingEventMap` is the
`state.view_event_callback_map.get(ord).unwrap()` panic in
`handle_wry_event`. -/
inductive RtError where
  | unknownView
  | missingEventMap
deriving DecidableEq

/-- `rt.rs` `handle_create_web_view` (state effects): insert the
surface under `ord`, an empty event-callback map for `ord`, and the
native-window-id mapping. -/
def handle_create_web_view (ord : Nat) (window_id : Nat) (s : RtState) :
    RtState :=
  { s with
    views := keyInsert s.views ord,
    view_event_callback_map :=
      btreeInsert s.view_event_callback_map ord (fun _ => none),
    view_wid_map := btreeInsert s.view_wid_map window_id ord }

/-- `rt.rs` `handle_joestar_event`: one transition per command.
`EvalScript` and `DestroyWebView` `unwrap()` the lookup/removal of the
surface and thus fail hard on an unknown ord; `RegisterEvent` inserts
or replaces via `entry(ord).or_default()`; `UserLaunch` (thread spawn)
and `Terminate` (control-flow exit) leave the state unchanged. -/
def handle_joestar_event (s : RtState) (e : JoEvent) : Except RtError RtState :=
  match e with
  | JoEvent.UserLaunch => Except.ok s
  | JoEvent.CreateWebView ord _spec window_id =>
    Except.ok (handle_create_web_view ord window_id s)
  | JoEvent.EvalScript ord _script =>
    if ord ∈ s.views then Except.ok s else Except.error RtError.unknownView
  | JoEvent.DestroyWebView ord =>
    if ord ∈ s.views then
      Except.ok { s with views := s.views.filter (fun v => v != ord) }
    else Except.error RtError.unknownView
  | JoEvent.RegisterEvent ord key cb_index =>
    let callbacks := (s.view_event_callback_map ord).getD (fun _ => none)
    let newMap := btreeInsert s.view_event_callback_map ord (btreeInsert callbacks key cb_index)
    Except.ok { s with view_event_callback_map := newMap }
  | JoEvent.Terminate => Except.ok s

/-- `Agent::invalid` (`api.rs`): ord `usize::MAX`, empty `Path`. -/
def Agent.invalid : Agent :=
  ⟨usizeMax, Position.Path []⟩

/-- `api.rs` `struct View`. -/
structure View where
  ord : Nat
deriving DecidableEq

/-- `View::acquire`: succeeds iff the id is in the thread-local
`VIEW_CUR` list (passed explicitly). -/
def View.acquire (view_cur : List Nat) (id : Nat) : Option View :=
  if id ∈ view_cur then some ⟨id⟩ else none

/-- `Agent::view`: `View::acquire(self.ord)`. -/
def Agent.view (view_cur : List Nat) (a : Agent) : Option View :=
  View.acquire view_cur a.ord

/-- `i32::to_string` / decimal rendering of a signed position. -/
def intRepr (i : Int) : String :=
  match i with
  | Int.ofNat n => Nat.repr n
  | Int.negSucc n => "-" ++ Nat.repr (n + 1)

/-- The native window events handled by `handle_wry_event`. -/
inductive WryWindowEvent where
  | Resized (width height : Nat)
  | Moved (x y : Int)
  | CloseRequested

/-- The `Event::WindowEvent` arms of `rt.rs` `handle_wry_event`: resolve
the window id to an ord (silently returning when unknown), `unwrap()`
the per-view event-callback map, look up the key (silently returning
when unregistered), and `user_dispatch` a guarded invocation carrying
`Agent::invalid()` and the event payload.  `some entry` is the pushed
dispatch-queue entry; `none` means the arm returned without
dispatching. -/
def handle_window_event (s : RtState) (window_id : Nat)
    (ev : WryWindowEvent) : Except RtError (Option DispatchEntry) :=
  match ev with
  | WryWindowEvent.Resized width height =>
    match s.view_wid_map window_id with
    | none => Except.ok none
    | some ord =>
      match s.view_event_callback_map ord with
      | none => Except.error RtError.missingEventMap
      | some em =>
        match em ViewEventKey.Resize with
        | none => Except.ok none
        | some cb_index =>
          Except.ok (some ⟨cb_index, Agent.invalid,
            [("width", Nat.repr width), ("height", Nat.repr height)]⟩)
  | WryWindowEvent.Moved x y =>
    match s.view_wid_map window_id with
    | none => Except.ok none
    | some ord =>
      match s.view_event_callback_map ord with
      | none => Except.error RtError.missingEventMap
      | some em =>
        match em ViewEventKey.Move with
        | none => Except.ok none
        | some cb_index =>
          Except.ok (some ⟨cb_index, Agent.invalid,
            [("x", intRepr x), ("y", intRepr y)]⟩)
  | WryWindowEvent.CloseRequested =>
    match s.view_wid_map window_id with
    | none => Except.ok none
    | some ord =>
      match s.view_event_callback_map ord with
      | none => Except.error RtError.missingEventMap
      | some em =>
        match em ViewEventKey.CloseRequest with
        | none => Except.ok none
        | some cb_index =>
          Except.ok (some ⟨cb_index, Agent.invalid, []⟩)

/-! ## Dispatch queue (`rt.rs`: `user_dispatch`, `handle_user_launch`)

The `mpsc::channel` between the controller and the user thread is
modelled as a list in send order (the channel's FIFO contract). -/

/-- `user_dispatch`: `SENDER.send(Box::new(f))` — enqueue at the back. -/
def user_dispatch (queue : List DispatchEntry) (f : DispatchEntry) :
    List DispatchEntry :=
  queue ++ [f]

/-- The `while let Ok(callback) = rx.recv() { callback(); }` loop of
`handle_user_launch`: execute queued closures front to back; the result
is the execution trace. -/
def user_thread_loop : List DispatchEntry → List DispatchEntry
  | [] => []
  | callback :: rest => callback :: user_thread_loop rest

/-! ## User-thread statics and id assignment (`api.rs`: `VIEW_ID_NEXT`,
`VIEW_CUR`, `CALLBACK_ID_NEXT`, `CALLBACKS`)

A process run is a sequence of the user-thread operations that touch
these statics.  `fetch_add(1, SeqCst)` on an `AtomicUsize` returns the
old value and stores the wrapped successor.  The `view_trace` /
`cb_trace` fields are ghost accumulators recording the ids returned by
successive `View::new` / `Callback::create` calls. -/

structure UserState where
  view_id_next : Nat
  view_cur : List Nat
  callbacks : List Nat
  callback_id_next : Nat
  view_trace : List Nat
  cb_trace : List Nat
deriving DecidableEq

inductive UserOp where
  | viewNew
  | viewDestroy (ord : Nat)
  | cbCreate
  | cbRemove (id : Nat)

/-- `Vec::swap_remove(i)`: overwrite index `i` with the last element and
pop the last element. -/
def swapRemove (l : List Nat) (i : Nat) : List Nat :=
  (l.set i (l.getLast?.getD 0)).dropLast

/-- One user-thread operation on the statics.  `View::new` draws
`next_view_id()` and pushes it onto `VIEW_CUR`; `View::destroy` calls
`remove_cur_view`, whose `position(..).unwrap()` panics (`none`) when
the ord is not current; `Callback::create` draws the next callback id
and inserts it into `CALLBACKS`; `Callback::remove` removes the key. -/
def userStep (st : UserState) : UserOp → Option UserState
  | UserOp.viewNew =>
    let ord := st.view_id_next
    some { st with
      view_id_next := (ord + 1) % usizeWidth,
      view_cur := st.view_cur ++ [ord],
      view_trace := st.view_trace ++ [ord] }
  | UserOp.viewDestroy ord =>
    if ord ∈ st.view_cur then
      some { st with view_cur := swapRemove st.view_cur (st.view_cur.indexOf ord) }
    else none
  | UserOp.cbCreate =>
    let id := st.callback_id_next
    some { st with
      callback_id_next := (id + 1) % usizeWidth,
      callbacks := keyInsert st.callbacks id,
      cb_trace := st.cb_trace ++ [id] }
  | UserOp.cbRemove id =>
    some { st with callbacks := st.callbacks.filter (fun k => k != id) }

/-- Run a sequence of user-thread operations; `none` when some step
panicked. -/
def userRun : UserState → List UserOp → Option UserState
  | st, [] => some st
  | st, op :: rest =>
    match userStep st op with
    | none => none
    | some st2 => userRun st2 rest

/-- The statics at process start: both counters at 0, no live views, an
empty registry. -/
def initUserState : UserState :=
  ⟨0, [], [], 0, [], []⟩

def countViewNew : List UserOp → Nat
  | [] => 0
  | UserOp.viewNew :: rest => countViewNew rest + 1
  | _ :: rest => countViewNew rest

def countCbCreate : List UserOp → Nat
  | [] => 0
  | UserOp.cbCreate :: rest => countCbCreate rest + 1
  | _ :: rest => countCbCreate rest

example :
    userRun initUserState
      [UserOp.viewNew, UserOp.cbCreate, UserOp.viewNew, UserOp.viewDestroy 0,
       UserOp.viewNew, UserOp.cbRemove 0, UserOp.cbCreate] =
      some ⟨3, [1, 2], [1], 2, [0, 1, 2], [0, 1]⟩ := rfl

/-! ## Concrete controller states used by witnesses -/

/-- A per-view event map with callback 7 registered for `Resize`. -/
def sampleEventMap : ViewEventKey → Option Nat :=
  fun k => if k = ViewEventKey.Resize then some 7 else none

/-- An event-callback table with `sampleEventMap` installed for ord 0. -/
def sampleVecm : Nat → Option (ViewEventKey → Option Nat) :=
  fun o => if o = 0 then some sampleEventMap else none

/-- A window-id table mapping native window 10 to ord 0. -/
def sampleWidMap : Nat → Option Nat :=
  fun w => if w = 10 then some 0 else none

/-- Controller state with view 0 live. -/
def sampleRtState : RtState :=
  ⟨[0], sampleVecm, sampleWidMap⟩

/-- `sampleRtState` after `DestroyWebView 0`. -/
def sampleRtStateDestroyed : RtState :=
  ⟨[], sampleVecm, sampleWidMap⟩

/-! ## Claim theorems -/

/-- Claim C1.  The claimed round-trip `decode (encode a) = a` fails on
the code: the encoder always terminates every index with a comma, and
for a `Path` agent the decoder parses every comma-separated tail
segment without skipping empty ones, so `parse().unwrap()` panics on
the trailing empty segment — for the empty path `⟨0, Path []⟩`
(encoding `"0:"`) and for every non-empty path alike.  The `IdPath`
branch skips empty segments and does round-trip. -/
theorem agent_roundtrip_path_panics :
    agentFromStr (agentIntoString ⟨0, Position.Path []⟩) =
      Except.error RtPanic.unwrapFailed ∧
    agentFromStr (agentIntoString ⟨1, Position.Path [2, 5]⟩) =
      Except.error RtPanic.unwrapFailed ∧
    agentFromStr (agentIntoString ⟨3, Position.IdPath "b1" [0, 2]⟩) =
      Except.ok ⟨3, Position.IdPath "b1" [0, 2]⟩ :=
  ⟨rfl, rfl, rfl⟩

/-- Claim C2.  For each malformed shape of an inbound IPC string —
missing `>>>` separator, odd number of remaining lines, non-numeric
callback id — the handler `unwrap()`-panics (modelled `Except.error`)
on the controller thread instead of failing with a protocol error.  No
callback is invoked, but the claimed "does not crash the controller
thread" is violated. -/
theorem ipc_malformed_panics :
    ipc_handler [] "0,b1:1" = Except.error RtPanic.unwrapFailed ∧
    ipc_handler [] "0,b1:>>>7\nonlykey" = Except.error RtPanic.unwrapFailed ∧
    ipc_handler [] "0,b1:>>>abc" = Except.error RtPanic.unwrapFailed :=
  ⟨rfl, rfl, rfl⟩

/-- Claim C3, counterexample.  `Callback::invoke` on an id absent from
the registry is not a silent no-op: the
`CALLBACKS.get_mut(&self.id).unwrap()` panics (empty registry, id 0). -/
theorem invoke_absent_id_panics :
    Callback.invoke [] ⟨0⟩ ⟨0, Position.Path []⟩ [] =
      Except.error RtPanic.unwrapFailed :=
  rfl

/-- Claim C3, amended.  Invoking through the runtime's guarded dispatch
pattern (`if let Some(cb) = Callback::get(i) { cb.invoke(..) }`, the
only invocation path `rt.rs` uses) is a silent no-op for an id absent
from the registry: `Callback::get` returns `None`, no closure runs, the
registry is untouched; and `Callback::get` after `Callback::remove`
finds nothing.  Direct `Callback::invoke` on an absent id, however,
panics. -/
theorem guarded_dispatch_absent_noop (callbacks : List Nat) (id : Nat)
    (agent : Agent) (detail : List (String × String)) (c : Callback)
    (h : id ∉ callbacks) :
    Callback.get callbacks id = none ∧
    dispatch_closure callbacks id agent detail = none ∧
    Callback.get (Callback.remove callbacks c) c.id = none := by
  refine ⟨?_, ?_, ?_⟩
  · simp [Callback.get, h]
  · simp [dispatch_closure, Callback.get, h]
  · simp [Callback.get, Callback.remove, List.mem_filter]

/-- Witness for C3's amended theorem at a concrete registry. -/
theorem guarded_dispatch_absent_noop_witness :
    Callback.get [5] 3 = none ∧
    dispatch_closure [5] 3 ⟨0, Position.Path []⟩ [] = none ∧
    Callback.get (Callback.remove [5] ⟨5⟩) 5 = none :=
  guarded_dispatch_absent_noop [5] 3 ⟨0, Position.Path []⟩ [] ⟨5⟩ (by decide)

/-- Claim C5.  Registering callback `c1` and then `c2` for the same
`(ord, key)` leaves `view_event_callback_map` mapping `(ord, key)` to
`c2` only; the map holds at most one callback id per pair by
construction. -/
theorem register_event_replaces (s : RtState) (ord : Nat)
    (key : ViewEventKey) (c1 c2 : Nat) :
    ∃ s1 s2 : RtState,
      handle_joestar_event s (JoEvent.RegisterEvent ord key c1) = Except.ok s1 ∧
      handle_joestar_event s1 (JoEvent.RegisterEvent ord key c2) = Except.ok s2 ∧
      (s2.view_event_callback_map ord).map (fun em => em key) = some (some c2) := by
  refine ⟨_, _, rfl, rfl, ?_⟩
  simp [handle_joestar_event, btreeInsert]

/-- Claim C7.  `html_string` is structural and recursive: `<tag`, the
optional id, the attribute and style blocks when non-empty, `>`, the
optional text, the children serialized in order, `</tag>`; and the
concrete tree `div(p("x"))` serializes exactly to
`"<div><p>x</p></div>"`. -/
theorem html_string_structural :
    (∀ m : Model, html_string m =
      "<" ++ m.tag
        ++ (match m.id with
            | some i => " id=\"" ++ i ++ "\""
            | none => "")
        ++ (if m.attrs.isEmpty then "" else " " ++ attrs_string m.attrs)
        ++ (if m.style.isEmpty then "" else " style=\"" ++ style_string m.style ++ "\"")
        ++ ">"
        ++ (match m.text with
            | some t => t
            | none => "")
        ++ (m.children.map html_string).foldr (fun a b => a ++ b) ""
        ++ "</" ++ m.tag ++ ">") ∧
    html_string ((Model.new "div").child ((Model.new "p").withText "x")) =
      "<div><p>x</p></div>" := by
  have hl : ∀ cs : List Model,
      html_string_list cs = (cs.map html_string).foldr (fun a b => a ++ b) "" := by
    intro cs
    induction cs with
    | nil => simp [html_string_list]
    | cons c cs ih => simp [html_string_list, ih]
  constructor
  · intro m
    cases m with
    | mk tag id attrs style text children => simp [html_string, hl]
  · simp [Model.new, Model.child, Model.withText, html_string, html_string_list]

/-- Claim C4.  Processing `EvalScript` for an ord with no live surface —
never created, or already removed by a `DestroyWebView` — fails with
the UnknownView hard error (the `state.views.get(&ord).unwrap()` panic)
instead of silently succeeding or being ignored. -/
theorem eval_script_unknown_view (s : RtState) (ord : Nat) (script : String) :
    (ord ∉ s.views →
      handle_joestar_event s (JoEvent.EvalScript ord script) =
        Except.error RtError.unknownView) ∧
    (∀ s2 : RtState,
      handle_joestar_event s (JoEvent.DestroyWebView ord) = Except.ok s2 →
      handle_joestar_event s2 (JoEvent.EvalScript ord script) =
        Except.error RtError.unknownView) := by
  constructor
  · intro h
    simp [handle_joestar_event, h]
  · intro s2 h
    by_cases hm : ord ∈ s.views
    · simp [handle_joestar_event, hm] at h
      subst h
      simp [handle_joestar_event, List.mem_filter]
    · simp [handle_joestar_event, hm] at h

/-- Witness for C4: a never-created ord on an empty controller state,
and ord 3 evaluated right after its own destruction. -/
theorem eval_script_unknown_view_witness :
    handle_joestar_event (RtState.mk [] (fun _ => none) (fun _ => none))
      (JoEvent.EvalScript 0 "x") = Except.error RtError.unknownView ∧
    handle_joestar_event (RtState.mk [] (fun _ => none) (fun _ => none))
      (JoEvent.EvalScript 3 "y") = Except.error RtError.unknownView :=
  ⟨(eval_script_unknown_view (RtState.mk [] (fun _ => none) (fun _ => none))
      0 "x").1 (by simp),
   (eval_script_unknown_view (RtState.mk [3] (fun _ => none) (fun _ => none))
      3 "y").2 (RtState.mk [] (fun _ => none) (fun _ => none)) (by rfl)⟩

/-- The user-thread receive loop executes queued closures in queue
order. -/
theorem user_thread_loop_eq (l : List DispatchEntry) : user_thread_loop l = l := by
  induction l with
  | nil => rfl
  | cons c cs ih => simp [user_thread_loop, ih]

/-- Claim C8.  Dispatch ordering is FIFO: when entry `A` is enqueued by
`user_dispatch` before entry `B` (with arbitrary other entries `pre`
before, `mid` between, and `post` after), the user thread's receive
loop executes `A` strictly before `B`: `A` sits at position
`pre.length` and `B` at the later position `pre.length + 1 +
mid.length` of the execution trace. -/
theorem dispatch_queue_fifo (pre mid post : List DispatchEntry)
    (A B : DispatchEntry) :
    (user_thread_loop (user_dispatch (user_dispatch pre A ++ mid) B ++ post))[pre.length]? =
      some A ∧
    (user_thread_loop (user_dispatch (user_dispatch pre A ++ mid) B ++ post))[pre.length + 1 + mid.length]? =
      some B ∧
    pre.length < pre.length + 1 + mid.length := by
  have hq : user_dispatch (user_dispatch pre A ++ mid) B ++ post =
      pre ++ (A :: (mid ++ (B :: post))) := by
    simp [user_dispatch]
  rw [user_thread_loop_eq, hq]
  refine ⟨?_, ?_, by omega⟩
  · rw [List.getElem?_append_right (Nat.le_refl _)]
    simp
  · rw [List.getElem?_append_right (by omega : pre.length ≤ pre.length + 1 + mid.length)]
    have h1 : pre.length + 1 + mid.length - pre.length = mid.length + 1 := by omega
    rw [h1, List.getElem?_cons_succ, List.getElem?_append_right (Nat.le_refl _)]
    simp

/-- Claim C9.  `DestroyWebView ord` removes `ord` from `views` only:
`view_event_callback_map` and `view_wid_map` are untouched, so a later
native window event for the destroyed window still resolves through
them and still dispatches the previously registered callback. -/
theorem destroy_keeps_event_routing (s s2 : RtState)
    (ord window_id cb width height : Nat) (em : ViewEventKey → Option Nat)
    (hdestroy : handle_joestar_event s (JoEvent.DestroyWebView ord) = Except.ok s2)
    (hwid : s.view_wid_map window_id = some ord)
    (hem : s.view_event_callback_map ord = some em)
    (hcb : em ViewEventKey.Resize = some cb) :
    s2.view_event_callback_map = s.view_event_callback_map ∧
    s2.view_wid_map = s.view_wid_map ∧
    s2.views = s.views.filter (fun v => v != ord) ∧
    handle_window_event s2 window_id (WryWindowEvent.Resized width height) =
      Except.ok (some ⟨cb, Agent.invalid,
        [("width", Nat.repr width), ("height", Nat.repr height)]⟩) := by
  by_cases hm : ord ∈ s.views
  · simp [handle_joestar_event, hm] at hdestroy
    subst hdestroy
    refine ⟨rfl, rfl, rfl, ?_⟩
    simp [handle_window_event, hwid, hem, hcb]
  · simp [handle_joestar_event, hm] at hdestroy

/-- Witness for C9: view 0 (native window 10, Resize callback 7) is
destroyed, then a native resize still dispatches callback 7. -/
theorem destroy_keeps_event_routing_witness :
    handle_window_event sampleRtStateDestroyed 10
      (WryWindowEvent.Resized 800 600) =
      Except.ok (some ⟨7, Agent.invalid,
        [("width", Nat.repr 800), ("height", Nat.repr 600)]⟩) :=
  (destroy_keeps_event_routing sampleRtState sampleRtStateDestroyed
    0 10 7 800 600 sampleEventMap (by rfl) (by rfl) (by rfl) (by rfl)).2.2.2

/-- `Vec::swap_remove` introduces no element that was not already in
the vector. -/
theorem mem_swapRemove {l : List Nat} {i x : Nat} (hne : l ≠ [])
    (hx : x ∈ swapRemove l i) : x ∈ l := by
  have hx2 : x ∈ l.set i (l.getLast?.getD 0) := List.dropLast_subset _ hx
  rcases List.mem_or_eq_of_mem_set hx2 with h | h
  · exact h
  · subst h
    rw [List.getLast?_eq_getLast l hne]
    exact List.getLast_mem hne

/-- Invariant of the view-id counter along a run: starting from a state
whose trace is `range n`, whose counter holds `n % 2^64`, and whose
live-view list only holds ids below `n`, a run with few enough
`View::new` calls to avoid wrap-around extends the trace to
`range (n + creations)` and keeps every live ord below that bound. -/
theorem userRun_view_inv (ops : List UserOp) :
    ∀ (st s : UserState) (n : Nat),
      st.view_trace = List.range n →
      st.view_id_next = n % usizeWidth →
      (∀ x ∈ st.view_cur, x < n) →
      n + countViewNew ops ≤ usizeWidth →
      userRun st ops = some s →
      s.view_trace = List.range (n + countViewNew ops) ∧
      (∀ x ∈ s.view_cur, x < n + countViewNew ops) := by
  induction ops with
  | nil =>
    intro st s n h1 h2 h3 hb hrun
    simp only [userRun, Option.some.injEq] at hrun
    subst hrun
    simpa [countViewNew] using ⟨h1, h3⟩
  | cons op rest ih =>
    intro st s n h1 h2 h3 hb hrun
    cases op with
    | viewNew =>
      simp only [userRun, userStep] at hrun
      have hn : n < usizeWidth := by
        simp only [countViewNew] at hb
        omega
      have hid : st.view_id_next = n := by
        rw [h2, Nat.mod_eq_of_lt hn]
      have he : n + countViewNew (UserOp.viewNew :: rest) =
          (n + 1) + countViewNew rest := by
        simp only [countViewNew]
        omega
      rw [he]
      refine ih _ s (n + 1) ?_ ?_ ?_ ?_ hrun
      · simp only [hid, h1, List.range_succ]
      · simp only [hid]
      · intro x hx
        rcases List.mem_append.mp hx with hx | hx
        · exact Nat.lt_succ_of_lt (h3 x hx)
        · simp only [hid, List.mem_singleton] at hx
          omega
      · omega
    | viewDestroy ord =>
      by_cases hord : ord ∈ st.view_cur
      · simp only [userRun, userStep, if_pos hord] at hrun
        have hne : st.view_cur ≠ [] := List.ne_nil_of_mem hord
        have he : countViewNew (UserOp.viewDestroy ord :: rest) =
            countViewNew rest := rfl
        rw [he] at hb ⊢
        refine ih _ s n ?_ ?_ ?_ hb hrun
        · exact h1
        · exact h2
        · intro x hx
          exact h3 x (mem_swapRemove hne hx)
      · simp only [userRun, userStep, if_neg hord] at hrun
        exact Option.noConfusion hrun
    | cbCreate =>
      simp only [userRun, userStep] at hrun
      have he : countViewNew (UserOp.cbCreate :: rest) = countViewNew rest := rfl
      rw [he] at hb ⊢
      refine ih _ s n ?_ ?_ ?_ hb hrun
      · exact h1
      · exact h2
      · exact h3
    | cbRemove id =>
      simp only [userRun, userStep] at hrun
      have he : countViewNew (UserOp.cbRemove id :: rest) = countViewNew rest := rfl
      rw [he] at hb ⊢
      refine ih _ s n ?_ ?_ ?_ hb hrun
      · exact h1
      · exact h2
      · exact h3

/-- Invariant of the callback-id counter along a run (same shape as
`userRun_view_inv`). -/
theorem userRun_cb_inv (ops : List UserOp) :
    ∀ (st s : UserState) (m : Nat),
      st.cb_trace = List.range m →
      st.callback_id_next = m % usizeWidth →
      m + countCbCreate ops ≤ usizeWidth →
      userRun st ops = some s →
      s.cb_trace = List.range (m + countCbCreate ops) := by
  induction ops with
  | nil =>
    intro st s m h1 h2 hb hrun
    simp only [userRun, Option.some.injEq] at hrun
    subst hrun
    simpa [countCbCreate] using h1
  | cons op rest ih =>
    intro st s m h1 h2 hb hrun
    cases op with
    | viewNew =>
      simp only [userRun, userStep] at hrun
      have he : countCbCreate (UserOp.viewNew :: rest) = countCbCreate rest := rfl
      rw [he] at hb ⊢
      refine ih _ s m ?_ ?_ hb hrun
      · exact h1
      · exact h2
    | viewDestroy ord =>
      by_cases hord : ord ∈ st.view_cur
      · simp only [userRun, userStep, if_pos hord] at hrun
        have he : countCbCreate (UserOp.viewDestroy ord :: rest) =
            countCbCreate rest := rfl
        rw [he] at hb ⊢
        refine ih _ s m ?_ ?_ hb hrun
        · exact h1
        · exact h2
      · simp only [userRun, userStep, if_neg hord] at hrun
        exact Option.noConfusion hrun
    | cbCreate =>
      simp only [userRun, userStep] at hrun
      have hm : m < usizeWidth := by
        simp only [countCbCreate] at hb
        omega
      have hid : st.callback_id_next = m := by
        rw [h2, Nat.mod_eq_of_lt hm]
      have he : m + countCbCreate (UserOp.cbCreate :: rest) =
          (m + 1) + countCbCreate rest := by
        simp only [countCbCreate]
        omega
      rw [he]
      refine ih _ s (m + 1) ?_ ?_ ?_ hrun
      · simp only [hid, h1, List.range_succ]
      · simp only [hid]
      · omega
    | cbRemove id =>
      simp only [userRun, userStep] at hrun
      have he : countCbCreate (UserOp.cbRemove id :: rest) = countCbCreate rest := rfl
      rw [he] at hb ⊢
      refine ih _ s m ?_ ?_ hb hrun
      · exact h1
      · exact h2

/-- Claim C6.  In any process run (any sequence of `View::new`,
`View::destroy`, `Callback::create`, `Callback::remove` that does not
panic), as long as the 64-bit counters cannot wrap (at most `2^64`
creations of each kind), the ords returned by successive `View::new`
calls and the ids returned by successive `Callback::create` calls are
each strictly increasing — in particular never reused, even after the
earlier view was destroyed or the earlier callback removed. -/
theorem view_and_callback_ids_strictly_increasing (ops : List UserOp)
    (s : UserState) (h : userRun initUserState ops = some s)
    (hv : countViewNew ops ≤ usizeWidth) (hc : countCbCreate ops ≤ usizeWidth) :
    List.Pairwise (· < ·) s.view_trace ∧ List.Pairwise (· < ·) s.cb_trace := by
  have h1 := userRun_view_inv ops initUserState s 0 rfl rfl
    (by simp [initUserState]) (by omega) h
  have h2 := userRun_cb_inv ops initUserState s 0 rfl rfl (by omega) h
  rw [h1.1, h2]
  exact ⟨List.pairwise_lt_range _, List.pairwise_lt_range _⟩

/-- Witness for C6: a run with three `View::new`, two
`Callback::create`, one destroy and one remove interleaved. -/
theorem view_and_callback_ids_strictly_increasing_witness :
    List.Pairwise (· < ·) (UserState.mk 3 [1, 2] [1] 2 [0, 1, 2] [0, 1]).view_trace ∧
    List.Pairwise (· < ·) (UserState.mk 3 [1, 2] [1] 2 [0, 1, 2] [0, 1]).cb_trace :=
  view_and_callback_ids_strictly_increasing
    [UserOp.viewNew, UserOp.cbCreate, UserOp.viewNew, UserOp.viewDestroy 0,
     UserOp.viewNew, UserOp.cbRemove 0, UserOp.cbCreate]
    (UserState.mk 3 [1, 2] [1] 2 [0, 1, 2] [0, 1]) rfl (by decide) (by decide)

/-- Claim C10.  Every dispatch entry produced by a native window event
(Resize, Move, CloseRequest) carries `Agent::invalid()` — ord
`usize::MAX` with an empty `Path` — and in any non-panicking process
run with fewer than `usize::MAX` view creations (so in particular
whenever fewer than `usize::MAX` views exist), `view()` on that agent
returns `None`. -/
theorem native_event_agent_is_invalid (ops : List UserOp) (s : UserState)
    (h : userRun initUserState ops = some s)
    (hv : countViewNew ops ≤ usizeMax) :
    Agent.invalid.ord = usizeMax ∧
    Agent.invalid.position = Position.Path [] ∧
    Agent.view s.view_cur Agent.invalid = none ∧
    (∀ (rs : RtState) (window_id : Nat) (ev : WryWindowEvent) (d : DispatchEntry),
      handle_window_event rs window_id ev = Except.ok (some d) →
      d.agent = Agent.invalid) := by
  have hle : usizeMax ≤ usizeWidth := Nat.sub_le _ _
  have h1 := userRun_view_inv ops initUserState s 0 rfl rfl
    (by simp [initUserState]) (by omega) h
  have hmax : usizeMax ∉ s.view_cur := by
    intro hmem
    have := h1.2 usizeMax hmem
    omega
  refine ⟨rfl, rfl, ?_, ?_⟩
  · simp [Agent.view, View.acquire, Agent.invalid, hmax]
  · intro rs window_id ev d hd
    cases ev with
    | Resized width height =>
      simp only [handle_window_event] at hd
      repeat' split at hd
      all_goals simp_all
      all_goals (subst hd; rfl)
    | Moved x y =>
      simp only [handle_window_event] at hd
      repeat' split at hd
      all_goals simp_all
      all_goals (subst hd; rfl)
    | CloseRequested =>
      simp only [handle_window_event] at hd
      repeat' split at hd
      all_goals simp_all
      all_goals (subst hd; rfl)

/-- Witness for C10: after a run with one `View::new`, `view()` on
`Agent::invalid()` is `None`. -/
theorem native_event_agent_is_invalid_witness :
    Agent.view (UserState.mk 1 [0] [] 0 [0] []).view_cur Agent.invalid = none :=
  (native_event_agent_is_invalid [UserOp.viewNew]
    (UserState.mk 1 [0] [] 0 [0] []) rfl (by decide)).2.2.1

end Joestar
